import Mathlib

/-!
Formal model of the two algorithmic components of sqlmap lib/core/patch.py:

1. The deterministic sequence generator installed by unisonRandom
   (lines 228-258): a linear congruential generator over a single global
   register, together with the derived operations randint, choice, sample
   and seed.

2. The PrivateArea branch of the reversible unicode decode-error handler
   installed by dirtyPatches (lines 171-177): each byte of the failing
   span is formatted through the template string given by
   the Python expression int(r"000f00%2x" % v, 16) and turned into one
   code point.

The Python functions mutate a process-wide register (the module global
named rand); here the register is threaded explicitly: every operation
takes the register before the call and returns the register after it.
Python integer arithmetic is unbounded, so the register is an Int, and
the Python modulo operator (floored, sign of the divisor) is Int.fmod.
-/

namespace Patch

/-- Model of the Python exceptions that the modelled code can raise,
together with the two error names that the specification introduces in
its error taxonomy (RangeOrderError and EmptyDomainError). Modelled from
the spec: the last two constructors name errors of the spec taxonomy
only; no code under src ever defines or raises them, and they exist here
solely so claims that mention them can be stated and compared with what
the code actually raises. -/
inductive PyErr where
  | zeroDivisionError
  | valueError
  | indexError
  | rangeOrderError
  | emptyDomainError
deriving DecidableEq

/-- Decidable equality for Except results, used to evaluate the model on
concrete inputs. -/
instance {ε α : Type} [DecidableEq ε] [DecidableEq α] : DecidableEq (Except ε α) := fun x y =>
  match x, y with
  | Except.ok a, Except.ok b =>
    if h : a = b then Decidable.isTrue (by rw [h])
    else Decidable.isFalse (fun hh => h (Except.ok.inj hh))
  | Except.error a, Except.error b =>
    if h : a = b then Decidable.isTrue (by rw [h])
    else Decidable.isFalse (fun hh => h (Except.error.inj hh))
  | Except.ok _, Except.error _ => Decidable.isFalse (fun hh => Except.noConfusion hh)
  | Except.error _, Except.ok _ => Decidable.isFalse (fun hh => Except.noConfusion hh)

/-- Model of the inner function named lcg in unisonRandom
(src/lib/core/patch.py lines 233-239):

    a = 1140671485; c = 128201163; m = 2 ** 24
    rand = (a * rand + c) % m
    return rand

The first component of the result is the returned value, the second the
register after the update; in the source both are the same value. -/
def _lcg (rand : Int) : Int × Int :=
  let a : Int := 1140671485
  let c : Int := 128201163
  let m : Int := 2 ^ 24
  let r := Int.fmod (a * rand + c) m
  (r, r)

/-- Model of the inner function named randint in unisonRandom
(src/lib/core/patch.py lines 241-243):

    return a + (lcg() % (b - a + 1))

Python evaluates the call to lcg first, so the register is updated even
when the modulus b - a + 1 is zero and the modulo operation then raises
ZeroDivisionError. For a nonzero negative modulus Python returns a
result with the sign of the divisor (floored modulo), which raises
nothing; Int.fmod has exactly that behaviour. -/
def _randint (a b : Int) (rand : Int) : Except PyErr Int × Int :=
  let q := _lcg rand
  if b - a + 1 = 0 then (Except.error PyErr.zeroDivisionError, q.2)
  else (Except.ok (a + Int.fmod q.1 (b - a + 1)), q.2)

/-- Model of Python sequence indexing seq[i] with an Int index: a
negative index counts from the end, and an index that is still out of
bounds raises IndexError. -/
def pyIndex {α : Type} (seq : List α) (i : Int) : Except PyErr α :=
  let j := if i < 0 then i + (seq.length : Int) else i
  if 0 ≤ j then
    match seq.get? j.toNat with
    | some x => Except.ok x
    | none => Except.error PyErr.indexError
  else Except.error PyErr.indexError

/-- Model of the inner function named choice in unisonRandom
(src/lib/core/patch.py lines 245-246):

    return seq[randint(0, len(seq) - 1)]

On an empty sequence the call to randint has modulus
len(seq) - 1 - 0 + 1 = 0 and raises ZeroDivisionError, after the
register has already been advanced. -/
def _choice {α : Type} (seq : List α) (rand : Int) : Except PyErr α × Int :=
  match _randint 0 ((seq.length : Int) - 1) rand with
  | (Except.ok i, rand2) => (pyIndex seq i, rand2)
  | (Except.error e, rand2) => (Except.error e, rand2)

/-- Model of the inner function named sample in unisonRandom
(src/lib/core/patch.py lines 248-249):

    return [choice(population) for _ in xrange(k)]

k successive draws of choice on the same population, with replacement,
collected left to right; the first raised exception propagates. The
Python count argument is an int and xrange(k) is empty for k below or
equal to zero, so the count is modelled as a Nat. -/
def _sample {α : Type} (population : List α) : Nat → Int → Except PyErr (List α) × Int
  | 0, rand => (Except.ok [], rand)
  | k + 1, rand =>
    match _choice population rand with
    | (Except.error e, rand2) => (Except.error e, rand2)
    | (Except.ok x, rand2) =>
      match _sample population k rand2 with
      | (Except.error e, rand3) => (Except.error e, rand3)
      | (Except.ok xs, rand3) => (Except.ok (x :: xs), rand3)

/-- Model of the inner function named seed in unisonRandom
(src/lib/core/patch.py lines 251-253):

    global rand
    rand = seed

The previous register value is passed in only to make explicit that it
is discarded; the source stores the raw seed value without reduction. -/
def _seed (seed : Int) (_rand : Int) : Int :=
  seed

/-- Running a list of ranged draws: for each pair (a, b) in turn perform
one randint(a, b) call, collecting the results and threading the
register. This is the straight iteration of the modelled operations and
introduces nothing beyond them. -/
def runDraws : Int → List (Int × Int) → List (Except PyErr Int) × Int
  | rand, [] => ([], rand)
  | rand, p :: rest =>
    let q := _randint p.1 p.2 rand
    let q2 := runDraws q.2 rest
    (q.1 :: q2.1, q2.2)

/-- Lowercase hexadecimal digit character for a value below 16, as
produced by the Python format specifier x. -/
def hexDigitChar (n : Nat) : Char :=
  if n < 10 then Char.ofNat ( '0'.toNat + n) else Char.ofNat ( 'a'.toNat + (n - 10))

/-- Model of the Python formatting expression r"%2x" % v for a byte
value v below 256: lowercase hexadecimal, left-padded with spaces (not
zeros) to a minimum width of two characters, so values below 16 produce
a space followed by one digit. -/
def fmt2x (v : Nat) : List Char :=
  if v < 16 then [ ' ', hexDigitChar v]
  else [hexDigitChar (v / 16), hexDigitChar (v % 16)]

/-- Model of the Python formatting expression r"000f00%2x" % v used in
the PrivateArea branch of the reversible handler
(src/lib/core/patch.py line 173). -/
def templatePA (v : Nat) : List Char :=
  [ '0', '0', '0', 'f', '0', '0'] ++ fmt2x v

/-- Value of a single hexadecimal digit character, none for any other
character (in particular none for a space). -/
def hexVal? (c : Char) : Option Nat :=
  if '0' ≤ c ∧ c ≤ '9' then some (c.toNat - '0'.toNat)
  else if 'a' ≤ c ∧ c ≤ 'f' then some (c.toNat - 'a'.toNat + 10)
  else if 'A' ≤ c ∧ c ≤ 'F' then some (c.toNat - 'A'.toNat + 10)
  else none

/-- Accumulating most-significant-first parse of a run of hexadecimal
digit characters; none as soon as any character is not a hexadecimal
digit. -/
def parseHexAux : Nat → List Char → Option Nat
  | acc, [] => some acc
  | acc, c :: cs =>
    match hexVal? c with
    | some d => parseHexAux (16 * acc + d) cs
    | none => none

/-- Leading and trailing spaces removed, as Python int does before
parsing. -/
def trimSpaces (cs : List Char) : List Char :=
  ((cs.dropWhile (fun c => c = ' ')).reverse.dropWhile (fun c => c = ' ')).reverse

/-- Model of the Python expression int(s, 16) restricted to the strings
the template above can produce: optional surrounding whitespace, then
one or more hexadecimal digits. A sign, a 0x prefix or underscores
never occur in those strings, and an interior space (as produced by the
space padding of fmt2x for byte values below 16) makes the literal
invalid, which in Python raises ValueError. -/
def int16? (cs : List Char) : Option Nat :=
  match trimSpaces cs with
  | [] => none
  | c :: cs2 => parseHexAux 0 (c :: cs2)

/-- One byte of the failing span turned into one code point by the
PrivateArea branch: the Python expression
unichr(int(r"000f00%2x" % v, 16)) modelled as the numeric code point;
none models the ValueError raised by int on an invalid literal. -/
def privateAreaUnit (v : Fin 256) : Option Nat :=
  int16? (templatePA v.val)

/-- Sequential elaboration of the generator expression joined by the
Python str join call: one unit per byte, left to right, with the first
failure propagating as the overall failure. -/
def joinUnits (f : Fin 256 → Option Nat) : List (Fin 256) → Option (List Nat)
  | [] => some []
  | v :: vs =>
    match f v, joinUnits f vs with
    | some u, some us => some (u :: us)
    | _, _ => none

/-- Model of the argument a Python decode-error handler receives: the
byte string being decoded and the failing span [start, endPos). Python
bytes elements are values in [0, 256), hence Fin 256. The source
attribute named end is a reserved word here and is called endPos. -/
structure DecodeError where
  object : List (Fin 256)
  start : Nat
  endPos : Nat
deriving DecidableEq

/-- Model of the INVALID_UNICODE_PRIVATE_AREA branch of the inner
function named reversible in dirtyPatches (src/lib/core/patch.py lines
171-173):

    return (u"".join(unichr(int(r"000f00%2x" % ..., 16))
            for _ in ex.object[ex.start:ex.end]), ex.end)

The replacement text is modelled as the list of code points; a
ValueError raised while formatting any byte of the span is the error
result. The slice ex.object[ex.start:ex.end] is drop then take. -/
def reversiblePA (ex : DecodeError) : Except PyErr (List Nat × Nat) :=
  match joinUnits privateAreaUnit ((ex.object.drop ex.start).take (ex.endPos - ex.start)) with
  | some units => Except.ok (units, ex.endPos)
  | none => Except.error PyErr.valueError

/-- The value and the register returned by one lcg step, written out. -/
theorem lcg_val_eq (r : Int) :
    (_lcg r).2 = Int.fmod (1140671485 * r + 128201163) (2 ^ 24) :=
  rfl

/-- The register after one lcg step lies in the interval [0, 2 to the 24). -/
theorem lcg_bounds (r : Int) : 0 ≤ (_lcg r).2 ∧ (_lcg r).2 < 2 ^ 24 := by
  have hM : (0 : Int) < 2 ^ 24 := by positivity
  rw [lcg_val_eq, Int.fmod_eq_emod _ (le_of_lt hM)]
  exact ⟨Int.emod_nonneg _ (ne_of_gt hM), Int.emod_lt_of_pos _ hM⟩

/-- One lcg step depends only on the register modulo 2 to the 24. -/
theorem lcg_congr (s : Int) : _lcg (Int.fmod s (2 ^ 24)) = _lcg s := by
  have hM : (0 : Int) ≤ 2 ^ 24 := by positivity
  have h : (1140671485 * (s % 2 ^ 24) + 128201163) % 2 ^ 24
      = (1140671485 * s + 128201163) % 2 ^ 24 := by
    conv_lhs => rw [Int.add_emod, Int.mul_emod, Int.emod_emod_of_dvd s dvd_rfl]
    conv_rhs => rw [Int.add_emod, Int.mul_emod]
  show (Int.fmod (1140671485 * Int.fmod s (2 ^ 24) + 128201163) (2 ^ 24),
        Int.fmod (1140671485 * Int.fmod s (2 ^ 24) + 128201163) (2 ^ 24))
      = (Int.fmod (1140671485 * s + 128201163) (2 ^ 24),
         Int.fmod (1140671485 * s + 128201163) (2 ^ 24))
  rw [Int.fmod_eq_emod s hM, Int.fmod_eq_emod _ hM, Int.fmod_eq_emod _ hM, h]

/-- A ranged draw depends only on the register modulo 2 to the 24. -/
theorem randint_congr (a b s : Int) :
    _randint a b (Int.fmod s (2 ^ 24)) = _randint a b s := by
  simp only [_randint, lcg_congr]

/-- A sequence of ranged draws yields the same results from a register
and from that register reduced modulo 2 to the 24. -/
theorem runDraws_fmod (args : List (Int × Int)) (s : Int) :
    (runDraws (Int.fmod s (2 ^ 24)) args).1 = (runDraws s args).1 := by
  cases args with
  | nil => rfl
  | cons p rest => simp only [runDraws, randint_congr]

/-- The register returned by a ranged draw is always the register after
exactly one lcg step, whether the draw succeeds or fails. -/
theorem randint_state (a b rand : Int) : (_randint a b rand).2 = (_lcg rand).2 := by
  simp only [_randint]
  split <;> rfl

/-- With ordered bounds a ranged draw succeeds and its result lies in
the interval [a, b]. -/
theorem randint_ok_of_le (a b rand : Int) (h : a ≤ b) :
    ∃ r, (_randint a b rand).1 = Except.ok r ∧ a ≤ r ∧ r ≤ b := by
  have hm : 0 < b - a + 1 := by omega
  have hne : b - a + 1 ≠ 0 := ne_of_gt hm
  have h1 : 0 ≤ (_lcg rand).1 % (b - a + 1) := Int.emod_nonneg _ hne
  have h2 : (_lcg rand).1 % (b - a + 1) < b - a + 1 := Int.emod_lt_of_pos _ hm
  refine ⟨a + Int.fmod (_lcg rand).1 (b - a + 1), ?_, ?_, ?_⟩
  · simp only [_randint, if_neg hne]
  · rw [Int.fmod_eq_emod _ (le_of_lt hm)]
    omega
  · rw [Int.fmod_eq_emod _ (le_of_lt hm)]
    omega

/-- On the empty sequence choice fails with ZeroDivisionError, and the
register has nevertheless been advanced by one lcg step. -/
theorem choice_nil {α : Type} (rand : Int) :
    _choice ([] : List α) rand = (Except.error PyErr.zeroDivisionError, (_lcg rand).2) := by
  have h0 : ((List.length ([] : List α) : Int) - 1) - 0 + 1 = 0 := by simp
  simp only [_choice, _randint, if_pos h0]

/-- On the empty population a sample of positive size fails with
ZeroDivisionError after one lcg step. -/
theorem sample_nil_succ {α : Type} (k : Nat) (rand : Int) :
    _sample ([] : List α) (k + 1) rand
      = (Except.error PyErr.zeroDivisionError, (_lcg rand).2) := by
  simp only [_sample, choice_nil]

/-- The register returned by choice is always the register after exactly
one lcg step, whether the call succeeds or fails. -/
theorem choice_state {α : Type} (seq : List α) (rand : Int) :
    (_choice seq rand).2 = (_lcg rand).2 := by
  have h := randint_state 0 ((seq.length : Int) - 1) rand
  simp only [_choice]
  rcases hq : _randint 0 ((seq.length : Int) - 1) rand with ⟨res, s2⟩
  rw [hq] at h
  cases res <;> exact h

/-- On a nonempty sequence choice succeeds and returns a member of the
sequence. -/
theorem choice_ok {α : Type} (seq : List α) (hne : seq ≠ []) (rand : Int) :
    ∃ x, (_choice seq rand).1 = Except.ok x ∧ x ∈ seq := by
  have hlen : 0 < seq.length := List.length_pos.mpr hne
  have hle : (0 : Int) ≤ (seq.length : Int) - 1 := by omega
  obtain ⟨i, hi, hi0, hib⟩ := randint_ok_of_le 0 ((seq.length : Int) - 1) rand hle
  rcases hq : _randint 0 ((seq.length : Int) - 1) rand with ⟨res, s2⟩
  rw [hq] at hi
  simp only at hi
  subst hi
  have hch : (_choice seq rand).1 = pyIndex seq i := by
    simp only [_choice, hq]
  have hneg : ¬ i < 0 := by omega
  have hjn : i.toNat < seq.length := by omega
  refine ⟨seq.get ⟨i.toNat, hjn⟩, ?_, List.get_mem seq i.toNat hjn⟩
  rw [hch]
  simp only [pyIndex, if_neg hneg, if_pos hi0]
  rw [List.get?_eq_get hjn]

/-- On a nonempty population a sample of any size succeeds, has exactly
the requested length, and draws every element from the population. -/
theorem sample_ok {α : Type} (pop : List α) (hne : pop ≠ []) (k : Nat) :
    ∀ rand : Int,
      ∃ xs, (_sample pop k rand).1 = Except.ok xs ∧ xs.length = k ∧ ∀ x ∈ xs, x ∈ pop := by
  induction k with
  | zero =>
    intro rand
    exact ⟨[], rfl, rfl, by intro x hx; cases hx⟩
  | succ k ih =>
    intro rand
    obtain ⟨x, hx, hxm⟩ := choice_ok pop hne rand
    rcases hc : _choice pop rand with ⟨res, s2⟩
    rw [hc] at hx
    simp only at hx
    subst hx
    obtain ⟨xs, hxs, hlen, hall⟩ := ih s2
    rcases hs : _sample pop k s2 with ⟨res2, s3⟩
    rw [hs] at hxs
    simp only at hxs
    subst hxs
    refine ⟨x :: xs, ?_, by simp [hlen], ?_⟩
    · simp only [_sample, hc, hs]
    · intro y hy
      rcases List.mem_cons.mp hy with h1 | h2
      · subst h1
        exact hxm
      · exact hall y h2

set_option maxRecDepth 8000 in
/-- Exhaustive evaluation of the PrivateArea per-byte encoding: for a
byte value below 16 the space padding of fmt2x makes the hexadecimal
literal invalid and int raises ValueError; for a byte value of 16 or
more the literal parses to the code point 983040 + v, that is
0x0F0000 + v. -/
theorem privateAreaUnit_eq : ∀ v : Fin 256,
    privateAreaUnit v = if v.val < 16 then none else some (983040 + v.val) := by
  decide

/-- If any byte of the list is below 16, joining the PrivateArea units
fails. -/
theorem joinUnits_PA_none (l : List (Fin 256)) (h : ∃ v ∈ l, v.val < 16) :
    joinUnits privateAreaUnit l = none := by
  induction l with
  | nil =>
    rcases h with ⟨v, hv, _⟩
    cases hv
  | cons x xs ih =>
    rcases h with ⟨v, hv, hlt⟩
    simp only [joinUnits]
    rcases List.mem_cons.mp hv with h1 | h2
    · subst h1
      rw [privateAreaUnit_eq v, if_pos hlt]
    · rw [ih ⟨v, h2, hlt⟩]
      cases privateAreaUnit x <;> rfl

/-- If every byte of the list is 16 or more, joining the PrivateArea
units yields the code point 983040 + v for each byte v in order. -/
theorem joinUnits_PA_some (l : List (Fin 256)) (h : ∀ v ∈ l, 16 ≤ v.val) :
    joinUnits privateAreaUnit l = some (l.map (fun v => 983040 + v.val)) := by
  induction l with
  | nil => rfl
  | cons x xs ih =>
    have hx : ¬ x.val < 16 := by
      have := h x (List.mem_cons_self x xs)
      omega
    simp only [joinUnits, List.map]
    rw [privateAreaUnit_eq x, if_neg hx, ih (fun v hv => h v (List.mem_cons_of_mem x hv))]

/-- C1: for every seed value s and every sequence of valid bounds pairs
with a below or equal to b, seeding and then performing the draws yields
exactly the same sequence of results in any two runs of the generator,
whatever register state each run had before seeding: the draw sequence
is a deterministic function of the seed and the argument sequence
alone. -/
theorem draws_deterministic_of_seed (s : Int) (args : List (Int × Int))
    (h : ∀ p ∈ args, p.1 ≤ p.2) (r0 r1 : Int) :
    (runDraws (_seed s r0) args).1 = (runDraws (_seed s r1) args).1 :=
  rfl

/-- Witness for C1 at seed 0, one draw with bounds 0 and 5, and the two
runs starting from register states 1 and 2. -/
theorem draws_deterministic_of_seed_witness :
    (∀ p ∈ [((0 : Int), (5 : Int))], p.1 ≤ p.2) ∧
    (runDraws (_seed 0 1) [((0 : Int), (5 : Int))]).1
      = (runDraws (_seed 0 2) [((0 : Int), (5 : Int))]).1 :=
  ⟨by decide, draws_deterministic_of_seed 0 [(0, 5)] (by decide) 1 2⟩

/-- C2: after seed(0) the first register update yields the register
value 10760651, which is (1140671485 * 0 + 128201163) mod 16777216, and
the immediately following call randint(0, 16777215) returns exactly
10760651. -/
theorem seed_zero_first_draw :
    (_lcg (_seed 0 0)).2 = 10760651 ∧
    (_randint 0 16777215 (_seed 0 0)).1 = Except.ok 10760651 := by
  decide

/-- C3: for every pair of integers a, b with a below or equal to b and
every register state, the ranged draw succeeds and its value lies in the
closed interval [a, b]. -/
theorem randint_range_containment (a b rand : Int) (h : a ≤ b) :
    ∃ r, (_randint a b rand).1 = Except.ok r ∧ a ≤ r ∧ r ≤ b :=
  randint_ok_of_le a b rand h

/-- Witness for C3 at bounds 0 and 5 from register state 0. -/
theorem randint_range_containment_witness :
    (0 : Int) ≤ 5 ∧ ∃ r, (_randint 0 5 0).1 = Except.ok r ∧ 0 ≤ r ∧ r ≤ 5 :=
  ⟨by decide, randint_range_containment 0 5 0 (by decide)⟩

/-- C4 (code bug): in PrivateArea mode the handler does not map the
byte 0x00 to the code point 0x0F0000 = 983040 as the claim states;
instead the space padding of the format r"000f00%2x" produces the
string "000f00 0", which is not a valid base-16 literal, and the int
call raises ValueError. -/
theorem reversible_privateArea_byte_zero_value_error :
    reversiblePA ⟨[(0 : Fin 256)], 0, 1⟩ = Except.error PyErr.valueError ∧
    (Except.error PyErr.valueError : Except PyErr (List Nat × Nat))
      ≠ Except.ok ([983040], 1) := by
  decide

/-- C5 (counterexample): seed stores the raw value, not the value
reduced modulo 2 to the 24: seeding with 16777216 leaves the register at
16777216, which differs from 16777216 mod 16777216 = 0. -/
theorem seed_raw_counterexample :
    _seed (2 ^ 24) 0 = 2 ^ 24 ∧ Int.fmod (2 ^ 24) (2 ^ 24) ≠ 2 ^ 24 := by
  decide

/-- C5 (amended): seed stores the raw value unreduced, but every lcg
register update is reduced modulo 2 to the 24, so after any draw the
register is inside [0, 2 to the 24); moreover the draw sequence after
seeding with s coincides with the draw sequence after seeding with
s mod 2 to the 24, so no draw can observe the difference. -/
theorem seed_raw_register_reduced_amended (s rand : Int) :
    _seed s rand = s ∧
    (∀ r : Int, 0 ≤ (_lcg r).2 ∧ (_lcg r).2 < 2 ^ 24) ∧
    (∀ (args : List (Int × Int)) (r0 : Int),
      (runDraws (_seed s r0) args).1 = (runDraws (_seed (Int.fmod s (2 ^ 24)) r0) args).1) :=
  ⟨rfl, lcg_bounds, fun args _ => (runDraws_fmod args s).symm⟩

/-- C6 (counterexample): with a = 5 and b = 0 the bounds are reversed,
yet the draw does not fail at all: the Python modulo of the nonnegative
lcg value by the negative modulus -4 yields -1, and the call returns
4. -/
theorem randint_reversed_no_error_counterexample :
    (5 : Int) > 0 ∧ (_randint 5 0 0).1 = Except.ok 4 := by
  decide

/-- C6 (amended): a ranged draw fails exactly when b = a - 1, where the
modulus b - a + 1 is zero, and then with ZeroDivisionError, not with a
dedicated range-order error; for every other pair of bounds, including
all reversed pairs with b below a - 1, the draw succeeds. -/
theorem randint_error_amended (a b rand : Int) :
    (b = a - 1 → (_randint a b rand).1 = Except.error PyErr.zeroDivisionError) ∧
    (b ≠ a - 1 → ∃ r, (_randint a b rand).1 = Except.ok r) := by
  constructor
  · intro hb
    subst hb
    have h0 : a - 1 - a + 1 = 0 := by omega
    simp only [_randint, if_pos h0]
  · intro hb
    have hne : b - a + 1 ≠ 0 := by omega
    refine ⟨a + Int.fmod (_lcg rand).1 (b - a + 1), ?_⟩
    simp only [_randint, if_neg hne]

/-- Witness for C6 amended: bounds 1, 0 fail with ZeroDivisionError and
bounds 0, 1 succeed, both from register state 0. -/
theorem randint_error_amended_witness :
    (_randint 1 0 0).1 = Except.error PyErr.zeroDivisionError ∧
    ∃ r, (_randint 0 1 0).1 = Except.ok r :=
  ⟨(randint_error_amended 1 0 0).1 (by decide), (randint_error_amended 0 1 0).2 (by decide)⟩

/-- C7 (counterexample): choice on the empty sequence fails with
ZeroDivisionError, which is not the dedicated empty-domain error the
claim names. -/
theorem choice_empty_error_kind_counterexample :
    (_choice ([] : List Int) 0).1 = Except.error PyErr.zeroDivisionError ∧
    (Except.error PyErr.zeroDivisionError : Except PyErr Int)
      ≠ Except.error PyErr.emptyDomainError := by
  decide

/-- C7 (amended): choice fails on the empty sequence and sample fails on
the empty population with positive size, in both cases with
ZeroDivisionError raised by the modulo of the underlying ranged draw
rather than a dedicated empty-domain error; on nonempty inputs neither
operation fails. -/
theorem choice_sample_empty_amended (rand : Int) (k : Nat) :
    (_choice ([] : List Int) rand).1 = Except.error PyErr.zeroDivisionError ∧
    (0 < k → (_sample ([] : List Int) k rand).1 = Except.error PyErr.zeroDivisionError) ∧
    (∀ seq : List Int, seq ≠ [] → ∃ x, (_choice seq rand).1 = Except.ok x) ∧
    (∀ pop : List Int, pop ≠ [] → ∃ xs, (_sample pop k rand).1 = Except.ok xs) := by
  refine ⟨by rw [choice_nil], ?_, ?_, ?_⟩
  · intro hk
    cases k with
    | zero => cases hk
    | succ k => rw [sample_nil_succ]
  · intro seq hne
    obtain ⟨x, hx, _⟩ := choice_ok seq hne rand
    exact ⟨x, hx⟩
  · intro pop hne
    obtain ⟨xs, hxs, _, _⟩ := sample_ok pop hne k rand
    exact ⟨xs, hxs⟩

/-- Witness for C7 amended at register state 0 and size 1, with the
nonempty list holding 7. -/
theorem choice_sample_empty_amended_witness :
    (_sample ([] : List Int) 1 0).1 = Except.error PyErr.zeroDivisionError ∧
    (∃ x, (_choice ([7] : List Int) 0).1 = Except.ok x) ∧
    (∃ xs, (_sample ([7] : List Int) 1 0).1 = Except.ok xs) :=
  ⟨(choice_sample_empty_amended 0 1).2.1 (by decide),
   (choice_sample_empty_amended 0 1).2.2.1 [7] (by decide),
   (choice_sample_empty_amended 0 1).2.2.2 [7] (by decide)⟩

/-- C8 (counterexample): operations are not atomic on failure: from
register state 0 the failing call randint(0, -1) raises
ZeroDivisionError, yet the register has been advanced to 10760651
instead of being left at 0. -/
theorem failed_randint_state_changed_counterexample :
    (_randint 0 (-1) 0).1 = Except.error PyErr.zeroDivisionError ∧
    (_randint 0 (-1) 0).2 = 10760651 ∧ (10760651 : Int) ≠ 0 := by
  decide

/-- C8 (amended): a failing randint, choice or sample call does not
leave the register as it was: it leaves the register advanced by
exactly one lcg update of the prior register, because the lcg call is
evaluated before the failing modulo; seed itself never fails. -/
theorem failed_draw_advances_register_amended (a b rand : Int) (k : Nat) :
    (∀ e : PyErr, (_randint a b rand).1 = Except.error e →
      (_randint a b rand).2 = (_lcg rand).2) ∧
    (∀ (seq : List Int) (e : PyErr), (_choice seq rand).1 = Except.error e →
      (_choice seq rand).2 = (_lcg rand).2) ∧
    (∀ (pop : List Int) (e : PyErr), (_sample pop k rand).1 = Except.error e →
      (_sample pop k rand).2 = (_lcg rand).2) := by
  refine ⟨fun e _ => randint_state a b rand, fun seq e _ => choice_state seq rand, ?_⟩
  intro pop e herr
  cases pop with
  | nil =>
    cases k with
    | zero => exact Except.noConfusion herr
    | succ k => rw [sample_nil_succ]
  | cons x xs =>
    obtain ⟨ys, hys, _, _⟩ := sample_ok (x :: xs) (by simp) k rand
    rw [herr] at hys
    cases hys

/-- Witness for C8 amended: from register state 0, the failing calls
randint(0, -1) and sample([], 1) both leave the register at the value
after one lcg step. -/
theorem failed_draw_advances_register_amended_witness :
    (_randint 0 (-1) 0).2 = (_lcg 0).2 ∧ (_sample ([] : List Int) 1 0).2 = (_lcg 0).2 :=
  ⟨(failed_draw_advances_register_amended 0 (-1) 0 1).1 PyErr.zeroDivisionError (by decide),
   (failed_draw_advances_register_amended 0 (-1) 0 1).2.2 [] PyErr.zeroDivisionError (by decide)⟩

/-- C9: for every nonempty population and every size k, sample succeeds
and returns an ordered list of exactly length k all of whose elements
are members of the population; the embedded definition of sample is
literally k successive choice draws with replacement. -/
theorem sample_shape {α : Type} (pop : List α) (hne : pop ≠ []) (k : Nat) (rand : Int) :
    ∃ xs, (_sample pop k rand).1 = Except.ok xs ∧ xs.length = k ∧ ∀ x ∈ xs, x ∈ pop :=
  sample_ok pop hne k rand

/-- Witness for C9 on the population [1, 2] with size 2 from register
state 0. -/
theorem sample_shape_witness :
    ([1, 2] : List Int) ≠ [] ∧
    ∃ xs, (_sample ([1, 2] : List Int) 2 0).1 = Except.ok xs ∧ xs.length = 2 ∧
      ∀ x ∈ xs, x ∈ ([1, 2] : List Int) :=
  ⟨by decide, sample_shape [1, 2] (by decide) 2 0⟩

/-- C10: in PrivateArea mode the handler raises ValueError for every
failing span that contains any byte value below 0x10, because the
space-padded hexadecimal literal fails to parse; for a span whose bytes
are all 0x10 or more it returns one code point 983040 + v = 0x0F0000 + v
per byte together with the offset at the end of the span. -/
theorem reversible_privateArea_behavior (ex : DecodeError) :
    ((∃ v ∈ (ex.object.drop ex.start).take (ex.endPos - ex.start), v.val < 16) →
      reversiblePA ex = Except.error PyErr.valueError) ∧
    ((∀ v ∈ (ex.object.drop ex.start).take (ex.endPos - ex.start), 16 ≤ v.val) →
      reversiblePA ex = Except.ok
        (((ex.object.drop ex.start).take (ex.endPos - ex.start)).map (fun v => 983040 + v.val),
          ex.endPos)) := by
  constructor
  · intro h
    simp only [reversiblePA, joinUnits_PA_none _ h]
  · intro h
    simp only [reversiblePA, joinUnits_PA_some _ h]

set_option maxRecDepth 8000 in
/-- Witness for C10: the span holding the single byte 5 fails with
ValueError, and the span holding the bytes 255 and 16 encodes to the
code points 983295 and 983056 with offset 2. -/
theorem reversible_privateArea_behavior_witness :
    reversiblePA ⟨[(5 : Fin 256)], 0, 1⟩ = Except.error PyErr.valueError ∧
    reversiblePA ⟨[(255 : Fin 256), (16 : Fin 256)], 0, 2⟩ =
      Except.ok (((([(255 : Fin 256), (16 : Fin 256)] : List (Fin 256)).drop 0).take
        (2 - 0)).map (fun v => 983040 + v.val), 2) :=
  ⟨(reversible_privateArea_behavior ⟨[(5 : Fin 256)], 0, 1⟩).1 (by decide),
   (reversible_privateArea_behavior ⟨[(255 : Fin 256), (16 : Fin 256)], 0, 2⟩).2 (by decide)⟩

end Patch
